import Mathlib

/-!
Verification development for the Canvas course/assignment capture tool.

The Python sources are shallowly embedded below:
- `src/utils/url_utils.py` (`is_target_url`, `url_to_folder_name`,
  `url_to_subfolder_name`) over a model of CPython's `urllib.parse.urlparse`;
- `src/Web_analys/core/page_saver.py` (`PageSaver.generate_file_paths`);
- `src/Web_analys/core/url_capture_service.py` (`URLCaptureService.capture_url`);
- `src/Web_analys/core/browser_session.py` (`BrowserSession._wait_for_target_page`);
- `src/Classes/assignment.py` (`Assignment._get_target_page_after_click`);
- `src/Web_analys/grab/assignment_extractor.py`
  (`AssignmentExtractor.extract_assignments_by_title`) over a rose-tree DOM;
- `src/Web_analys/grab/assignment_detail_capture.py` (the assignment-id
  extraction and parent-folder wiring of `capture_from_assignments_html`).

Python strings are modelled as `String` manipulated through `List Char`
(one `Char` per Python character), fallible operations as `Option`/`Except`,
and file-system effects as an explicit write log. All definitions are
structurally recursive so that concrete runs reduce by `decide`/`rfl`.
-/

/-! ## Character-list primitives for Python string operations -/

/-- Python `pat in hay` (substring containment). `"" in s` is `True`. -/
def lcContains (hay pat : List Char) : Bool :=
  match hay with
  | [] => pat.isEmpty
  | _ :: rest => pat.isPrefixOf hay || lcContains rest pat

/-- Python `hay.startswith(pat)`. -/
def lcStartsWith (hay pat : List Char) : Bool :=
  pat.isPrefixOf hay

/-- Python `hay.endswith(pat)`. -/
def lcEndsWith (hay pat : List Char) : Bool :=
  pat.isSuffixOf hay

/-- Python `s.rstrip(cs)`: drop from the right every trailing char in `cs`. -/
def lcRstrip (l : List Char) (cs : List Char) : List Char :=
  (l.reverse.dropWhile (fun c => cs.contains c)).reverse

/-- Python `s.lstrip(cs)`. -/
def lcLstrip (l : List Char) (cs : List Char) : List Char :=
  l.dropWhile (fun c => cs.contains c)

/-- Python `s.strip(cs)`. -/
def lcStrip (l : List Char) (cs : List Char) : List Char :=
  lcRstrip (lcLstrip l cs) cs

/-- Split at the first occurrence of character `c`; `none` if `c` is absent.
Models Python `s.split(c, 1)` when it actually splits. -/
def lcBreakAtChar (c : Char) : List Char → Option (List Char × List Char)
  | [] => none
  | x :: rest =>
    if x = c then some ([], rest)
    else (lcBreakAtChar c rest).map (fun p => (x :: p.1, p.2))

/-- Python `s.split(c)` for a single-character separator. -/
def lcSplitChar (c : Char) : List Char → List (List Char)
  | [] => [[]]
  | x :: rest =>
    let r := lcSplitChar c rest
    if x = c then [] :: r
    else
      match r with
      | h :: t => (x :: h) :: t
      | [] => [[x]]

/-- Auxiliary fuel-indexed scanner for `lcSplitOn`. -/
def lcSplitOnAux (sep : List Char) : Nat → List Char → List Char → List (List Char)
  | 0, l, acc => [acc.reverse ++ l]
  | fuel + 1, l, acc =>
    match l with
    | [] => [acc.reverse]
    | c :: rest =>
      if sep.isPrefixOf l then acc.reverse :: lcSplitOnAux sep fuel (l.drop sep.length) []
      else lcSplitOnAux sep fuel rest (c :: acc)

/-- Python `s.split(sep)` for a non-empty separator string (leftmost,
non-overlapping occurrences). -/
def lcSplitOn (sep l : List Char) : List (List Char) :=
  lcSplitOnAux sep l.length l []

/-- Auxiliary fuel-indexed scanner for `lcReplace`. -/
def lcReplaceAux (pat rep : List Char) : Nat → List Char → List Char
  | 0, l => l
  | fuel + 1, l =>
    match l with
    | [] => []
    | c :: rest =>
      if pat.isPrefixOf l then rep ++ lcReplaceAux pat rep fuel (l.drop pat.length)
      else c :: lcReplaceAux pat rep fuel rest

/-- Python `s.replace(pat, rep)` for a non-empty pattern (every leftmost,
non-overlapping occurrence). -/
def lcReplace (pat rep l : List Char) : List Char :=
  lcReplaceAux pat rep l.length l

/-! String-level wrappers. -/

/-- Python `pat in hay` on `String`. -/
def strContains (hay pat : String) : Bool := lcContains hay.data pat.data

/-- Python `s.rstrip(cs)` on `String`. -/
def strRstrip (s : String) (cs : List Char) : String := ⟨lcRstrip s.data cs⟩

/-- Python `s[:n]` (first `n` characters). -/
def strTake (s : String) (n : Nat) : String := ⟨s.data.take n⟩

/-- Python `s.replace(pat, rep)` on `String`. -/
def strReplace (s pat rep : String) : String := ⟨lcReplace pat.data rep.data s.data⟩

/-- Python `s.isdigit()` restricted to ASCII digits (the only digits the
captured Canvas URLs contain). -/
def isDigitStr (s : String) : Bool := !s.isEmpty && s.data.all Char.isDigit

/-- `pathlib.Path(p).parent` rendered on plain strings: everything before the
last `/`, or `"."` when the path has no slash. -/
def dirname (p : String) : String :=
  if p.data.contains '/' then ⟨((p.data.reverse.dropWhile (fun c => c ≠ '/')).drop 1).reverse⟩
  else "."

/-! ## Model of `urllib.parse.urlparse` (CPython 3.11 `urlsplit` plus the
params split of `urlparse`). `none` models the `ValueError` raised for an
authority with unbalanced square brackets. (The further validations CPython
performs on bracketed hosts and non-ASCII authorities are not modelled; no
URL in this development contains brackets or non-ASCII characters.) -/

structure UrlParts where
  scheme : String
  netloc : String
  path : String
  params : String
  query : String
  fragment : String
deriving Repr, DecidableEq

/-- Characters allowed in a URL scheme. -/
def schemeChar (c : Char) : Bool :=
  (c.toNat ≤ 127 && (c.isAlpha || c.isDigit)) || c = '+' || c = '-' || c = '.'

/-- The schemes for which `urlparse` splits `;params` off the path. -/
def usesParams : List String :=
  ["", "ftp", "hdl", "prospero", "http", "imap", "https", "shttp", "rtsp",
   "rtspu", "sip", "sips", "mms", "sftp", "tel"]

/-- Split a leading `scheme:` if the part before the first `:` is a valid
scheme (non-empty, leading ASCII letter, scheme characters only). -/
def splitScheme (l : List Char) : String × List Char :=
  match lcBreakAtChar ':' l with
  | none => ("", l)
  | some (pre, post) =>
    match pre with
    | [] => ("", l)
    | c0 :: _ =>
      if c0.toNat ≤ 127 ∧ c0.isAlpha ∧ pre.all schemeChar then (⟨pre.map Char.toLower⟩, post)
      else ("", l)

/-- A character ending the authority component. -/
def netlocDelim (c : Char) : Bool := c = '/' || c = '?' || c = '#'

/-- CPython `_splitparams`: split `;params` off the last path segment. -/
def pySplitParams (l : List Char) : List Char × List Char :=
  if l.contains '/' then
    let afterLastSlash := (l.reverse.takeWhile (fun c => c ≠ '/')).reverse
    let before := l.take (l.length - afterLastSlash.length)
    match lcBreakAtChar ';' afterLastSlash with
    | none => (l, [])
    | some (a, b) => (before ++ a, b)
  else
    match lcBreakAtChar ';' l with
    | none => (l, [])
    | some (a, b) => (a, b)

/-- Model of `urllib.parse.urlparse`. -/
def urlparse? (url : String) : Option UrlParts :=
  let l0 := url.data.dropWhile (fun c => c.toNat ≤ 32)
  let l1 := l0.filter (fun c => c ≠ '\t' ∧ c ≠ '\r' ∧ c ≠ '\n')
  let (scheme, l2) := splitScheme l1
  let (netloc, l3) :=
    match l2 with
    | '/' :: '/' :: rest => (rest.takeWhile (fun c => !netlocDelim c),
                             rest.dropWhile (fun c => !netlocDelim c))
    | _ => ([], l2)
  if (netloc.contains '[' && !netloc.contains ']') ||
     (netloc.contains ']' && !netloc.contains '[') then none
  else
    let (l4, fragment) :=
      match lcBreakAtChar '#' l3 with
      | some (a, b) => (a, b)
      | none => (l3, [])
    let (rawPath, query) :=
      match lcBreakAtChar '?' l4 with
      | some (a, b) => (a, b)
      | none => (l4, [])
    let (path, params) :=
      if usesParams.contains scheme && rawPath.contains ';' then pySplitParams rawPath
      else (rawPath, [])
    some ⟨scheme, ⟨netloc⟩, ⟨path⟩, ⟨params⟩, ⟨query⟩, ⟨fragment⟩⟩

example : urlparse? "https://sit.instructure.com/courses/123/assignments" =
    some ⟨"https", "sit.instructure.com", "/courses/123/assignments", "", "", ""⟩ := by decide

example : urlparse? "http://[" = none := by decide

example : urlparse? "http://h/p#f?q" = some ⟨"http", "h", "/p", "", "", "f?q"⟩ := by decide

example : urlparse? "http://h/a/b;p" = some ⟨"http", "h", "/a/b", "p", "", ""⟩ := by decide

example : urlparse? "9://x/y" = some ⟨"", "", "9://x/y", "", "", ""⟩ := by decide

/-! ## `src/utils/url_utils.py` -/

/-- The character class of `re.sub(r'[<>:"/\\|?*\x00-\x1f]', '_', ...)`. -/
def isIllegalChar (c : Char) : Bool :=
  (['<', '>', ':', '\"', '/', '\\', '|', '?', '*'].contains c) || c.toNat ≤ 0x1f

/-- One application of the `re.sub` above (character-wise replacement). -/
def sanitize (s : String) : String :=
  ⟨s.data.map (fun c => if isIllegalChar c then '_' else c)⟩

/-- `[p for p in parsed.path.strip('/').split('/') if p]`. -/
def pathParts (path : String) : List String :=
  ((lcSplitChar '/' (lcStrip path.data ['/'])).map (fun l => (⟨l⟩ : String))).filter
    (fun p => p ≠ "")

/-- `is_target_url`, inner loop over the target list. `none` models a
`ValueError` escaping from `urlparse(target_url)`. -/
def matchTargets (pu : UrlParts) : List String → Option Bool
  | [] => some false
  | t :: ts =>
    if t = "" then matchTargets pu ts
    else
      match urlparse? t with
      | none => none
      | some pt =>
        if pt.path = "/" ∨ pt.path = "" then
          if pu.netloc = pt.netloc then some true else matchTargets pu ts
        else if pu.netloc ≠ pt.netloc then matchTargets pu ts
        else if lcStartsWith (lcRstrip pu.path.data ['/']) (lcRstrip pt.path.data ['/']) then
          some true
        else matchTargets pu ts

/-- `is_target_url(url, target_urls)` for a list of targets. `none` models a
`ValueError` escaping from `urlparse`. -/
def is_target_url (url : String) (target_urls : List String) : Option Bool :=
  if url = "" ∨ target_urls = [] then some false
  else
    match urlparse? url with
    | none => none
    | some pu => matchTargets pu target_urls

/-- `url_to_folder_name(url, max_length)`. -/
def url_to_folder_name (url : String) (max_length : Nat) : String :=
  match urlparse? url with
  | none => "page"
  | some parsed =>
    let folderParts0 : List String :=
      if parsed.netloc ≠ "" then [strReplace parsed.netloc "www." ""] else []
    let folderParts : List String :=
      if parsed.path ≠ "" ∧ parsed.path ≠ "/" then
        if pathParts parsed.path ≠ [] then folderParts0 ++ (pathParts parsed.path).take 2
        else folderParts0
      else folderParts0
    let folder_name :=
      if folderParts ≠ [] then String.intercalate "_" folderParts else "page"
    strRstrip (strTake (sanitize folder_name) max_length) ['_']

/-- Shared tail of `url_to_subfolder_name`: sanitize, truncate, strip
trailing underscores and spaces. -/
def finishSubfolder (s : String) (max_length : Nat) : String :=
  strRstrip (strTake (sanitize s) max_length) ['_', ' ']

/-- `url_to_subfolder_name(url, max_length)`. -/
def url_to_subfolder_name (url : String) (max_length : Nat) : String :=
  match urlparse? url with
  | none => "page"
  | some parsed =>
    if parsed.path ≠ "" ∧ parsed.path ≠ "/" then
      match pathParts parsed.path with
      | [] => "page"
      | [p0] => finishSubfolder p0 max_length
      | [_, p1] => finishSubfolder p1 max_length
      | parts =>
        match parts.getLast?, parts.dropLast.getLast? with
        | some last_part, some second_last =>
          let subfolder :=
            if isDigitStr last_part ∧ second_last = "assignments" then
              "assignment_" ++ last_part
            else if last_part = "assignments" then "assignments"
            else last_part
          finishSubfolder subfolder max_length
        | _, _ => "page"
    else "page"

example : url_to_subfolder_name "https://sit.instructure.com/courses/123/assignments/456" 50 =
    "assignment_456" := by decide
example : url_to_subfolder_name "https://sit.instructure.com/courses/123/assignments" 50 =
    "assignments" := by decide
example : url_to_subfolder_name "https://sit.instructure.com/courses/123" 50 = "123" := by decide
example : url_to_folder_name "https://sit.instructure.com/courses/123/assignments/456" 100 =
    "sit.instructure.com_courses_123" := by decide
example : url_to_folder_name "https://www.example.com/" 100 = "example.com" := by decide
example : url_to_folder_name "http://example.com./" 100 = "example.com." := by decide
example : url_to_subfolder_name "https://x/a/b/c." 50 = "c." := by decide
example : is_target_url "http://h/courses/123" ["http://h/courses/12"] = some true := by decide
example : is_target_url "http://h/x" ["http://h/"] = some true := by decide
example : is_target_url "http://g/x" ["http://h/"] = some false := by decide
example : is_target_url "http://[" ["http://h/"] = none := by decide

/-! ## `src/Web_analys/core/page_saver.py`: `PageSaver.generate_file_paths` -/

/-- Try `re.search(r'/courses/(\d+)/assignments', path)` at one position. -/
def matchCourseAt (l : List Char) : Option String :=
  if lcStartsWith l "/courses/".data then
    let rest := l.drop 9
    let digits := rest.takeWhile Char.isDigit
    if digits ≠ [] ∧ lcStartsWith (rest.drop digits.length) "/assignments".data then
      some ⟨digits⟩
    else none
  else none

/-- `re.search(r'/courses/(\d+)/assignments', path)`: leftmost match, the
captured course id. (`\d+` is greedy and the character after the digits must
be `/`, so backtracking inside the digit run can never succeed; scanning with
a maximal digit run is exact.) -/
def findCourseId : List Char → Option String
  | [] => none
  | c :: rest =>
    match matchCourseAt (c :: rest) with
    | some d => some d
    | none => findCourseId rest

/-- `re.sub` + truncation applied to an explicit `course_name`
(`safe_course_name` in `generate_file_paths`; note: no trailing strip). -/
def safeCourseName (course_name : String) : String :=
  strTake (sanitize course_name) 100

/-- `PageSaver.generate_file_paths(url, timestamp, parent_html_file,
course_name)`: the directory the snapshot pair is stored in. `none` models a
`ValueError` escaping from the `urlparse(url)` in the course-id branch. -/
def generate_dir? (output_dir url : String)
    (parent_html_file course_name : Option String) : Option String :=
  match parent_html_file with
  | some parent =>
    let parent_dir := dirname parent
    let subfolder? : Option String :=
      match course_name with
      | some cn => some (safeCourseName cn)
      | none =>
        let subfolder_name := url_to_subfolder_name url 50
        if strContains url "/assignments" then
          match urlparse? url with
          | none => none
          | some parsed =>
            match findCourseId parsed.path.data with
            | some course_id => some ("course_" ++ course_id)
            | none => some subfolder_name
        else some subfolder_name
    subfolder?.map (fun sub => parent_dir ++ "/" ++ sub)
  | none =>
    let folder_name :=
      match course_name with
      | some cn => safeCourseName cn
      | none => url_to_folder_name url 100
    some (output_dir ++ "/" ++ folder_name)

/-- `PageSaver.generate_file_paths`: the `(html_path, screenshot_path)` pair,
filenames being the shared timestamp string. -/
def generate_file_paths? (output_dir url timestamp_str : String)
    (parent_html_file course_name : Option String) : Option (String × String) :=
  (generate_dir? output_dir url parent_html_file course_name).map
    (fun url_dir => (url_dir ++ "/" ++ timestamp_str ++ ".html",
                     url_dir ++ "/" ++ timestamp_str ++ ".png"))

/-! ## `src/Web_analys/grab/assignment_detail_capture.py`:
the assignment-id extraction of `capture_from_assignments_html` -/

/-- Try `re.search(r'/assignments/(\d+)$', url)` at one position. -/
def matchAssignmentIdAt (l : List Char) : Option String :=
  if lcStartsWith l "/assignments/".data then
    let rest := l.drop 13
    if rest ≠ [] ∧ rest.all Char.isDigit then some ⟨rest⟩ else none
  else none

/-- `re.search(r'/assignments/(\d+)$', assignment_url)`: the assignment id
used as the detail page's folder name (`_course_name`). -/
def extractAssignmentId : List Char → Option String
  | [] => none
  | c :: rest =>
    match matchAssignmentIdAt (c :: rest) with
    | some d => some d
    | none => extractAssignmentId rest

/-! ## `src/Web_analys/core/url_capture_service.py`: `URLCaptureService.capture_url` -/

/-- `CaptureResult` (src/Web_analys/core/capture_result.py); the timestamp is
kept as its formatted string. -/
structure CaptureResult where
  url : String
  html_file : String
  screenshot_file : String
  timestamp : String
deriving Repr, DecidableEq

/-- The exceptions `capture_url` can raise (src/Web_analys/core/exceptions.py):
`SaveError` carries the offending file path; `PageLoadError` stands for the
browser/page-load errors re-raised as-is; `webAnalys` for the generic
`WebAnalysError` wrapper around unknown exceptions. -/
inductive CaptureErr where
  | save (file_path : String)
  | pageLoad
  | webAnalys
deriving Repr, DecidableEq

/-- The environment a single `capture_url` call observes: the page the
browser actually ends up on after `session.open_url` (`none` when opening the
URL raised), and whether each of the two file writes succeeds. -/
structure CaptureEnv where
  openedUrl : Option String
  htmlWriteOk : Bool
  screenshotWriteOk : Bool
deriving Repr, DecidableEq

deriving instance DecidableEq for Except

/-- `URLCaptureService.capture_url(url)`: the returned/raised outcome paired
with the list of files written, in order. `Except.ok none` is the discarded
capture (`return None`). -/
def capture_url (output_dir url timestamp_str : String)
    (parent_html_file course_name : Option String) (env : CaptureEnv) :
    Except CaptureErr (Option CaptureResult) × List String :=
  match env.openedUrl with
  | none => (Except.error CaptureErr.pageLoad, [])
  | some current_url =>
    match urlparse? url with
    | none => (Except.error CaptureErr.webAnalys, [])
    | some parsed_original =>
      match urlparse? current_url with
      | none => (Except.error CaptureErr.webAnalys, [])
      | some parsed_current =>
        if parsed_current.netloc ≠ parsed_original.netloc then (Except.ok none, [])
        else
          let original_path := strRstrip parsed_original.path ['/']
          let current_path := strRstrip parsed_current.path ['/']
          if original_path ≠ "" ∧ current_path ≠ "" ∧
              ¬ lcStartsWith current_path.data original_path.data then
            (Except.ok none, [])
          else if strContains original_path "/assignments" ∧
              ¬ strContains current_path "/assignments" then
            (Except.ok none, [])
          else
            match generate_file_paths? output_dir url timestamp_str
                parent_html_file course_name with
            | none => (Except.error CaptureErr.webAnalys, [])
            | some (html_path, screenshot_path) =>
              if ¬ env.htmlWriteOk then (Except.error (CaptureErr.save html_path), [])
              else if ¬ env.screenshotWriteOk then
                (Except.error (CaptureErr.save screenshot_path), [html_path])
              else
                (Except.ok (some ⟨current_url, html_path, screenshot_path, timestamp_str⟩),
                 [html_path, screenshot_path])

example : generate_file_paths? "output" "https://sit.instructure.com/" "T1" none none =
    some ("output/sit.instructure.com/T1.html", "output/sit.instructure.com/T1.png") := by
  decide

example : generate_file_paths? "output" "https://sit.instructure.com/courses/123/assignments"
    "T2" (some "output/sit.instructure.com/T1.html") none =
    some ("output/sit.instructure.com/course_123/T2.html",
          "output/sit.instructure.com/course_123/T2.png") := by decide

example : extractAssignmentId "https://sit.instructure.com/courses/123/assignments/456".data =
    some "456" := by decide

example : generate_file_paths? "output" "https://sit.instructure.com/courses/123/assignments/456"
    "T3" (some "output/sit.instructure.com/course_123/T2.html") (some "456") =
    some ("output/sit.instructure.com/course_123/456/T3.html",
          "output/sit.instructure.com/course_123/456/T3.png") := by decide

example : capture_url "output" "https://h/courses/1" "T"
    none none ⟨some "https://login.other.com/login", true, true⟩ = (Except.ok none, []) := by
  decide

/-! ## `src/Classes/assignment.py`: `Assignment._get_target_page_after_click`

Open tabs are modelled by their URLs in opening order; the result is the
index of the chosen tab (`pg` objects are opaque page handles). -/

/-- `chrome://`, `about:` and `devtools://` pages, skipped by every loop. -/
def isSpecialPage (u : String) : Bool :=
  lcStartsWith u.data "chrome://".data || lcStartsWith u.data "about:".data ||
    lcStartsWith u.data "devtools://".data

/-- `parts = url.split(sep); len(parts) > 1 and parts[1]`. -/
def splitSecondNonempty (u : String) (sep : String) : Bool :=
  match lcSplitOn sep.data u.data with
  | _ :: p1 :: _ => !p1.isEmpty
  | _ => false

/-- The quizzes half of the first loop's body: detail-page test on the
rstripped URL. -/
def quizDetailTest (u : String) : Bool :=
  strContains u "/quizzes/" &&
    (if lcEndsWith u.data "/quizzes".data then false
     else splitSecondNonempty u "/quizzes/")

/-- The first loop's acceptance test on the rstripped URL `u`: an
`/assignments/` URL is skipped (`continue`) if it ends in `/assignments` and
accepted if something follows `/assignments/`; otherwise the same test runs
for `/quizzes/`. -/
def detailPageTest (u : String) : Bool :=
  if strContains u "/assignments/" then
    if lcEndsWith u.data "/assignments".data then false
    else if splitSecondNonempty u "/assignments/" then true
    else quizDetailTest u
  else quizDetailTest u

/-- The second loop's acceptance test (possible detail page). -/
def looseDetailTest (u : String) : Bool :=
  if lcEndsWith u.data "/assignments".data || lcEndsWith u.data "/quizzes".data then false
  else strContains u "/assignments" || strContains u "/quizzes"

/-- The third loop's acceptance test (last non-special, non-listing page). -/
def nonListingTest (u : String) : Bool :=
  !(lcEndsWith u.data "/assignments".data || lcEndsWith u.data "/quizzes".data)

/-- One `for pg in reversed(all_pages)` loop: most-recently-opened first,
skipping special pages, returning the index of the first accepted tab. -/
def scanPages (test : String → Bool) (all_pages : List String) : Option Nat :=
  (all_pages.enum.reverse.find?
      (fun p => !isSpecialPage p.2 && test (strRstrip p.2 ['/']))).map Prod.fst

/-- `Assignment._get_target_page_after_click`: index of the returned tab. -/
def get_target_page_after_click (all_pages : List String) : Option Nat :=
  (scanPages detailPageTest all_pages).orElse
    (fun _ => (scanPages looseDetailTest all_pages).orElse
      (fun _ => scanPages nonListingTest all_pages))

example : get_target_page_after_click
    ["https://x/courses/1/assignments", "https://x/courses/1/assignments/99"] = some 1 := by
  decide
example : get_target_page_after_click ["https://x/courses/1/assignments/2/quizzes"] = some 0 := by
  decide
example : get_target_page_after_click [] = none := by decide
example : get_target_page_after_click ["chrome://new-tab"] = none := by decide

/-! ## `src/Web_analys/core/browser_session.py`:
`BrowserSession._wait_for_target_page`

The page's URL over time is modelled by `urlAt : Nat → String`, giving the
URL seen by the `n`-th poll (polls are 5 s = 5000 ms apart, the first at
elapsed time 0). -/

/-- Outcome of the redirect-settling wait. `raised` models a `ValueError`
propagating out of `is_target_url`; in every other case the function returns
a page: the current page immediately (`noTargets`), the page once its URL
matches (`matched n`), or the current page when the ceiling elapses
(`timedOut n`). -/
inductive WaitOutcome where
  | noTargets
  | raised (n : Nat)
  | matched (n : Nat)
  | timedOut (n : Nat)
deriving Repr, DecidableEq

/-- The polling loop of `_wait_for_target_page`, fuel-indexed; `none` means
the fuel ran out (never happens for the fuel chosen in
`wait_for_target_page`, which is the termination claim). -/
def waitLoop (target_urls : List String) (urlAt : Nat → String) (timeout : Nat) :
    Nat → Nat → Option WaitOutcome
  | _, 0 => none
  | n, fuel + 1 =>
    match is_target_url (urlAt n) target_urls with
    | none => some (WaitOutcome.raised n)
    | some true => some (WaitOutcome.matched n)
    | some false =>
      if timeout ≤ n * 5000 then some (WaitOutcome.timedOut n)
      else waitLoop target_urls urlAt timeout (n + 1) fuel

/-- `BrowserSession._wait_for_target_page(page, original_url, timeout)`:
returns the current page immediately when no `target_urls` are configured,
otherwise polls every 5 s until match or ceiling. -/
def wait_for_target_page (target_urls : List String) (urlAt : Nat → String)
    (timeout : Nat) : Option WaitOutcome :=
  if target_urls = [] then some WaitOutcome.noTargets
  else waitLoop target_urls urlAt timeout 0 (timeout / 5000 + 2)

example : wait_for_target_page [] (fun _ => "x") 30000 = some WaitOutcome.noTargets := by decide
example : wait_for_target_page ["https://h/a"]
    (fun n => if n = 2 then "https://h/a/b" else "https://e/x") 30000 =
    some (WaitOutcome.matched 2) := by decide
example : wait_for_target_page ["https://h/a"] (fun _ => "https://e/x") 30000 =
    some (WaitOutcome.timedOut 6) := by decide
example : wait_for_target_page ["https://h/a"] (fun _ => "http://[") 30000 =
    some (WaitOutcome.raised 0) := by decide

/-! ## A rose-tree DOM for `src/Web_analys/grab/assignment_extractor.py`

The parsed HTML (`BeautifulSoup(html_content, 'html.parser')`) is modelled as
a forest of nodes; multi-valued `class` attributes are stored as the raw
attribute string and split on whitespace on access, as BeautifulSoup does. -/

mutual
inductive HNode where
  | text (s : String)
  | elem (tag : String) (attrs : List (String × String)) (children : HForest)
deriving Repr, DecidableEq
inductive HForest where
  | nil
  | cons (n : HNode) (f : HForest)
deriving Repr, DecidableEq
end

/-- Build a forest from a list of nodes. -/
def forestOf : List HNode → HForest
  | [] => HForest.nil
  | n :: ns => HForest.cons n (forestOf ns)

/-- Element-node builder. -/
def el (tag : String) (attrs : List (String × String)) (children : List HNode) : HNode :=
  HNode.elem tag attrs (forestOf children)

/-- Python whitespace (`str.strip()` / `str.split()` default). -/
def isPyWs (c : Char) : Bool :=
  c = ' ' || c = '\t' || c = '\n' || c = '\r' || c = '\x0b' || c = '\x0c'

/-- Python `s.strip()`. -/
def pyTrim (s : String) : String :=
  ⟨(((s.data.dropWhile isPyWs).reverse.dropWhile isPyWs).reverse)⟩

/-- Python `s.split()` (split on whitespace runs, no empty parts). -/
def pySplitWs (s : String) : List String :=
  ((lcSplitChar ' ' (s.data.map (fun c => if isPyWs c then ' ' else c))).map
      (fun l => (⟨l⟩ : String))).filter (fun p => p ≠ "")

/-- Python `s.lower()` (ASCII case fold; the captured pages are ASCII). -/
def strLower (s : String) : String := ⟨s.data.map Char.toLower⟩

/-- The tag name of a node (`""` for text nodes). -/
def tagOf : HNode → String
  | HNode.text _ => ""
  | HNode.elem t _ _ => t

/-- `node.get(key)`: first attribute with the given name. -/
def attrOf (n : HNode) (key : String) : Option String :=
  match n with
  | HNode.text _ => none
  | HNode.elem _ attrs _ => (attrs.find? (fun p => p.1 = key)).map Prod.snd

/-- `node.get('class', [])` as BeautifulSoup's whitespace-split list. -/
def classesOf (n : HNode) : List String :=
  pySplitWs ((attrOf n "class").getD "")

mutual
/-- The text strings under a node, in document order. -/
def nodeStrings : HNode → List String
  | HNode.text s => [s]
  | HNode.elem _ _ cs => forestStrings cs
/-- The text strings under a forest, in document order. -/
def forestStrings : HForest → List String
  | HForest.nil => []
  | HForest.cons n f => nodeStrings n ++ forestStrings f
end

/-- `node.get_text(strip=True)`: stripped text strings, concatenated. -/
def getTextStrip (n : HNode) : String :=
  String.join ((nodeStrings n).map pyTrim)

mutual
/-- The element nodes of a subtree (the node itself first), document order. -/
def nodeElems : HNode → List HNode
  | HNode.text _ => []
  | HNode.elem t a cs => HNode.elem t a cs :: forestElems cs
/-- The element nodes of a forest, document order. -/
def forestElems : HForest → List HNode
  | HForest.nil => []
  | HForest.cons n f => nodeElems n ++ forestElems f
end

/-- The element descendants of a node (itself excluded), document order:
the search space of `tag.find_all(...)`. -/
def descElems : HNode → List HNode
  | HNode.text _ => []
  | HNode.elem _ _ cs => forestElems cs

mutual
/-- Document-order search for the first element satisfying `p`, returning it
together with its ancestors, nearest first (`anc` accumulates them). -/
def nodeFindWithPath (p : HNode → Bool) (anc : List HNode) :
    HNode → Option (HNode × List HNode)
  | HNode.text _ => none
  | HNode.elem t a cs =>
    if p (HNode.elem t a cs) then some (HNode.elem t a cs, anc)
    else forestFindWithPath p (HNode.elem t a cs :: anc) cs
/-- Document-order search over a forest, with ancestors. -/
def forestFindWithPath (p : HNode → Bool) (anc : List HNode) :
    HForest → Option (HNode × List HNode)
  | HForest.nil => none
  | HForest.cons n f =>
    match nodeFindWithPath p anc n with
    | some r => some r
    | none => forestFindWithPath p anc f
end

/-- The `while current: ... current = current.parent` fallback: walk the
ancestors (nearest first) looking for a `div.assignment_group` that contains
a `div.assignment-list` descendant. -/
def ancestorGroupList : List HNode → Option HNode
  | [] => none
  | a :: rest =>
    if tagOf a = "div" && (classesOf a).contains "assignment_group" then
      match (descElems a).find? (fun n =>
          tagOf n = "div" && (classesOf n).contains "assignment-list") with
      | some c => some c
      | none => ancestorGroupList rest
    else ancestorGroupList rest

/-- One entry of the returned `assignment_links` list. The source dict's
remaining keys (`'tag'`, `'class'`, `'attributes'`, `'html'`) are constant or
copies of these fields and are not modelled. -/
structure AssignmentLink where
  url : String
  assignment_name : String
  section_aria_controls : String
  text : String
deriving Repr, DecidableEq

/-- The body of the extractor's `for link in links` loop: build one
`assignment_info` entry from an `a.ig-title` node (skipping it when its
`href` is empty), resolving relative hrefs against the `<base>` tag or the
hard-coded default. -/
def buildAssignmentLink (doc : HForest) (aria_controls : String) (link : HNode) :
    Option AssignmentLink :=
  let href := (attrOf link "href").getD ""
  let text := getTextStrip link
  if href = "" then none
  else
    let full_url :=
      if lcStartsWith href.data "http://".data || lcStartsWith href.data "https://".data then
        href
      else if lcStartsWith href.data "/".data then
        (match (forestElems doc).find? (fun n =>
            tagOf n = "base" && (attrOf n "href").isSome) with
         | some b => strRstrip ((attrOf b "href").getD "") ['/']
         | none => "https://sit.instructure.com") ++ href
      else "https://sit.instructure.com" ++ "/" ++ (⟨lcLstrip href.data ['/']⟩ : String)
    some ⟨full_url, text, aria_controls, text⟩

/-- `button` with class `element_toggler` whose visible text contains the
section title, case-insensitively. -/
def togglerMatches (section_title : String) (n : HNode) : Bool :=
  tagOf n = "button" && (classesOf n).contains "element_toggler" &&
    lcContains (strLower (getTextStrip n)).data (strLower section_title).data

/-- `AssignmentExtractor.extract_assignments_by_title(html_file,
section_title)` on the parsed document (the missing-file and parse-exception
paths, which also return `[]`, are outside the model). -/
def extract_assignments_by_title (doc : HForest) (section_title : String) :
    List AssignmentLink :=
  match forestFindWithPath (togglerMatches section_title) [] doc with
  | none => []
  | some (section_button, ancestors) =>
    let aria_controls := (attrOf section_button "aria-controls").getD ""
    if aria_controls = "" then []
    else
      let byId := (forestElems doc).find? (fun n =>
        tagOf n = "div" && attrOf n "id" = some aria_controls)
      let byListId :=
        match byId with
        | some c => some c
        | none => (forestElems doc).find? (fun n =>
            tagOf n = "div" && (classesOf n).contains "assignment-list" &&
              (match attrOf n "id" with
               | some idv => idv ≠ "" && strContains idv aria_controls
               | none => false))
      let section_container :=
        match byListId with
        | some c => some c
        | none => ancestorGroupList ancestors
      match section_container with
      | none => []
      | some container =>
        let links := (descElems container).filter (fun n =>
          tagOf n = "a" && (classesOf n).contains "ig-title")
        links.filterMap (buildAssignmentLink doc aria_controls)

/-! Document-shape builders used by the extractor theorems. -/

/-- A collapsible section's toggle button. -/
def sectionButton (label cid : String) : HNode :=
  el "button" [("class", "element_toggler accessible-toggler"), ("aria-controls", cid)]
    [HNode.text label]

/-- One assignment link (`<a class="ig-title" href=...>name</a>`). -/
def igLink (href name : String) : HNode :=
  el "a" [("class", "ig-title"), ("href", href)] [HNode.text name]

/-- A section's content container: `<div id=cid>` holding the links. -/
def sectionContainer (cid : String) (links : List (String × String)) : HNode :=
  HNode.elem "div" [("id", cid)] (forestOf (links.map (fun p => igLink p.1 p.2)))

/-- A page with two named collapsible sections, each with its own links. -/
def twoSectionDoc (lbl1 cid1 : String) (links1 : List (String × String))
    (lbl2 cid2 : String) (links2 : List (String × String)) : HForest :=
  forestOf [el "html" [] [el "body" []
    [sectionButton lbl1 cid1, sectionContainer cid1 links1,
     sectionButton lbl2 cid2, sectionContainer cid2 links2]]]

/-- A page with a toggle button whose content container is missing. -/
def buttonOnlyDoc (lbl cid : String) : HForest :=
  forestOf [el "html" [] [el "body" [] [sectionButton lbl cid]]]

example : extract_assignments_by_title
    (twoSectionDoc "Past Assignments" "assignment_group_past" [("https://x/courses/1/assignments/9", "HW 9")]
      "Upcoming Assignments" "assignment_group_upcoming" [("https://x/courses/1/assignments/7", "HW 7")])
    "past assignments" =
    [⟨"https://x/courses/1/assignments/9", "HW 9", "assignment_group_past", "HW 9"⟩] := by
  decide

example : extract_assignments_by_title
    (twoSectionDoc "Past Assignments" "g1" [("https://x/a/1", "A")] "Upcoming" "g2"
      [("https://x/a/2", "B")]) "Overdue" = [] := by decide

example : extract_assignments_by_title (buttonOnlyDoc "Past Assignments" "g1")
    "past" = [] := by decide

/-! ## Supporting lemmas on the sanitize / truncate / strip pipeline -/

theorem mem_lcRstrip {c : Char} {l cs : List Char} (h : c ∈ lcRstrip l cs) : c ∈ l := by
  unfold lcRstrip at h
  rw [List.mem_reverse] at h
  exact List.mem_reverse.mp ((List.dropWhile_sublist _).subset h)

theorem length_lcRstrip_le (l cs : List Char) : (lcRstrip l cs).length ≤ l.length := by
  unfold lcRstrip
  rw [List.length_reverse]
  calc (l.reverse.dropWhile fun c => cs.contains c).length
      ≤ l.reverse.length := (List.dropWhile_sublist _).length_le
    _ = l.length := List.length_reverse l

theorem head?_dropWhile_not {p : Char → Bool} :
    ∀ {l : List Char} {c : Char}, (l.dropWhile p).head? = some c → p c = false := by
  intro l
  induction l with
  | nil => intro c h; exact Option.noConfusion h
  | cons a t ih =>
    intro c h
    rw [List.dropWhile_cons] at h
    by_cases hpa : p a
    · rw [if_pos hpa] at h; exact ih h
    · rw [if_neg hpa] at h
      simp only [List.head?_cons, Option.some.injEq] at h
      subst h
      exact Bool.eq_false_iff.mpr hpa

theorem getLast?_lcRstrip {l cs : List Char} {c : Char}
    (h : (lcRstrip l cs).getLast? = some c) : cs.contains c = false := by
  unfold lcRstrip at h
  rw [List.getLast?_reverse] at h
  exact head?_dropWhile_not h

theorem lcRstrip_eq_self {l cs : List Char} {c : Char}
    (hc : l.getLast? = some c) (hmem : cs.contains c = false) : lcRstrip l cs = l := by
  unfold lcRstrip
  rw [← List.head?_reverse] at hc
  have : l.reverse.dropWhile (fun c => cs.contains c) = l.reverse := by
    cases hr : l.reverse with
    | nil => rfl
    | cons a t =>
      rw [hr] at hc
      simp only [List.head?_cons, Option.some.injEq] at hc
      subst hc
      rw [List.dropWhile_cons, hmem]
      simp
  rw [this, List.reverse_reverse]

theorem mem_sanitize {c : Char} {s : String} (h : c ∈ (sanitize s).data) :
    isIllegalChar c = false := by
  unfold sanitize at h
  simp only [List.mem_map] at h
  obtain ⟨x, _, hx⟩ := h
  by_cases hix : isIllegalChar x
  · simp only [hix, if_true] at hx; subst hx; decide
  · simp only [hix, if_false] at hx; subst hx; exact Bool.eq_false_iff.mpr hix

theorem map_sanitizeChar_eq_self {l : List Char} (h : ∀ c ∈ l, isIllegalChar c = false) :
    l.map (fun c => if isIllegalChar c then '_' else c) = l := by
  induction l with
  | nil => rfl
  | cons a t ih =>
    have ha := h a (by simp)
    simp only [List.map_cons, ha, if_false, Bool.false_eq_true]
    rw [ih (fun c hc => h c (List.mem_cons_of_mem a hc))]

theorem sanitize_eq_self {s : String} (h : ∀ c ∈ s.data, isIllegalChar c = false) :
    sanitize s = s := by
  unfold sanitize
  rw [map_sanitizeChar_eq_self h]

theorem mem_pipeline {c : Char} {s : String} {n : Nat} {cs : List Char}
    (h : c ∈ (strRstrip (strTake s n) cs).data) : c ∈ s.data := by
  unfold strRstrip strTake at h
  exact List.take_subset _ _ (mem_lcRstrip h)

theorem length_pipeline (s : String) (n : Nat) (cs : List Char) :
    (strRstrip (strTake s n) cs).length ≤ n := by
  unfold strRstrip strTake
  show (lcRstrip (s.data.take n) cs).length ≤ n
  calc (lcRstrip (s.data.take n) cs).length
      ≤ (s.data.take n).length := length_lcRstrip_le _ _
    _ ≤ n := by simp

theorem url_to_folder_name_cases (url : String) (maxL : Nat) :
    url_to_folder_name url maxL = "page" ∨
      ∃ s, url_to_folder_name url maxL = strRstrip (strTake (sanitize s) maxL) ['_'] := by
  unfold url_to_folder_name
  cases h : urlparse? url
  · exact Or.inl rfl
  · exact Or.inr ⟨_, rfl⟩

theorem url_to_subfolder_name_cases (url : String) (maxL : Nat) :
    url_to_subfolder_name url maxL = "page" ∨
      ∃ s, url_to_subfolder_name url maxL = finishSubfolder s maxL := by
  unfold url_to_subfolder_name
  cases h : urlparse? url
  · exact Or.inl rfl
  · rename_i parsed
    dsimp only
    by_cases hp : parsed.path ≠ "" ∧ parsed.path ≠ "/"
    · rw [if_pos hp]
      rcases hpp : pathParts parsed.path with _ | ⟨p0, _ | ⟨p1, _ | ⟨p2, rest2⟩⟩⟩
      · exact Or.inl rfl
      · exact Or.inr ⟨_, rfl⟩
      · exact Or.inr ⟨_, rfl⟩
      · dsimp only
        cases hgl : (p0 :: p1 :: p2 :: rest2 : List String).getLast?
        · exact Or.inl rfl
        · cases hg2 : (p0 :: p1 :: p2 :: rest2 : List String).dropLast.getLast?
          · exact Or.inl rfl
          · exact Or.inr ⟨_, rfl⟩
    · rw [if_neg hp]
      exact Or.inl rfl

theorem not_illegal_spec {c : Char} (h : isIllegalChar c = false) :
    c ∉ ['<', '>', ':', '\"', '/', '\\', '|', '?', '*'] ∧ 0x1f < c.toNat := by
  unfold isIllegalChar at h
  rw [Bool.or_eq_false_iff] at h
  constructor
  · intro hmem
    have helem := List.elem_iff.mpr hmem
    rw [List.contains] at h
    rw [h.1] at helem
    exact Bool.noConfusion helem
  · have := of_decide_eq_false h.2
    omega

theorem page_chars {c : Char} (h : c ∈ ("page" : String).data) :
    c ∉ ['<', '>', ':', '\"', '/', '\\', '|', '?', '*'] ∧ 0x1f < c.toNat := by
  have hd : ("page" : String).data = ['p', 'a', 'g', 'e'] := rfl
  rw [hd] at h
  simp only [List.mem_cons, List.not_mem_nil, or_false] at h
  rcases h with rfl | rfl | rfl | rfl <;> exact ⟨by decide, by decide⟩

/-- C7: for every input URL, the outputs of `url_to_folder_name` (at its
documented maximum 100) and `url_to_subfolder_name` (at 50) contain none of
the characters `< > : " / \ | ? *` and no control characters (the C0 range
the code's character class replaces), their lengths are bounded by the
respective maxima, and any URL the parser rejects yields the fallback
placeholder `"page"` instead of an error (the embedded functions are total
by construction). -/
theorem c7_naming_safety (url : String) :
    (url_to_folder_name url 100).length ≤ 100 ∧
    (url_to_subfolder_name url 50).length ≤ 50 ∧
    (∀ c ∈ (url_to_folder_name url 100).data,
      c ∉ ['<', '>', ':', '\"', '/', '\\', '|', '?', '*'] ∧ 0x1f < c.toNat) ∧
    (∀ c ∈ (url_to_subfolder_name url 50).data,
      c ∉ ['<', '>', ':', '\"', '/', '\\', '|', '?', '*'] ∧ 0x1f < c.toNat) ∧
    (urlparse? url = none →
      url_to_folder_name url 100 = "page" ∧ url_to_subfolder_name url 50 = "page") := by
  have hf := url_to_folder_name_cases url 100
  have hs := url_to_subfolder_name_cases url 50
  refine ⟨?_, ?_, ?_, ?_, ?_⟩
  · rcases hf with h | ⟨s, h⟩ <;> rw [h]
    · decide
    · exact length_pipeline (sanitize s) 100 ['_']
  · rcases hs with h | ⟨s, h⟩ <;> rw [h]
    · decide
    · exact length_pipeline (sanitize s) 50 ['_', ' ']
  · intro c hc
    rcases hf with h | ⟨s, h⟩ <;> rw [h] at hc
    · exact page_chars hc
    · exact not_illegal_spec (mem_sanitize (mem_pipeline hc))
  · intro c hc
    rcases hs with h | ⟨s, h⟩ <;> rw [h] at hc
    · exact page_chars hc
    · exact not_illegal_spec (mem_sanitize (mem_pipeline hc))
  · intro hnone
    constructor
    · unfold url_to_folder_name
      rw [hnone]
    · unfold url_to_subfolder_name
      rw [hnone]

theorem c7_naming_safety_witness :
    url_to_folder_name "http://[" 100 = "page" ∧
    (url_to_folder_name "https://x/a<b" 100).length ≤ 100 :=
  ⟨((c7_naming_safety "http://[").2.2.2.2 (by decide)).1,
   (c7_naming_safety "https://x/a<b").1⟩

/-- C8, counterexample: trailing dots are NOT stripped by either naming
function (`url_to_folder_name` strips only `_`, `url_to_subfolder_name`
strips only `_` and spaces), and a folder name can even end in a space, so
the claim "the returned strings end in neither a dot nor a space" fails. -/
theorem c8_counterexample :
    url_to_folder_name "http://example.com./" 100 = "example.com." ∧
    ("example.com." : String).data.getLast? = some '.' ∧
    url_to_subfolder_name "https://x/a/b/c." 50 = "c." ∧
    ("c." : String).data.getLast? = some '.' ∧
    url_to_folder_name "http://ab /" 100 = "ab " ∧
    ("ab " : String).data.getLast? = some ' ' := by decide

/-- C8, amended: empty path segments are ignored when deriving names, and
the characters actually stripped from the right are: `_` for
`url_to_folder_name`, `_` and spaces for `url_to_subfolder_name`; trailing
dots survive in both (and trailing spaces survive in folder names), as the
counterexample shows. -/
theorem c8_amended :
    (∀ path : String, "" ∉ pathParts path) ∧
    (∀ url : String, ∀ c : Char,
      (url_to_folder_name url 100).data.getLast? = some c → c ≠ '_') ∧
    (∀ url : String, ∀ c : Char,
      (url_to_subfolder_name url 50).data.getLast? = some c → c ≠ '_' ∧ c ≠ ' ') := by
  refine ⟨?_, ?_, ?_⟩
  · intro path hmem
    unfold pathParts at hmem
    exact absurd (List.mem_filter.mp hmem).2 (by decide)
  · intro url c hl
    rcases url_to_folder_name_cases url 100 with h | ⟨s, h⟩ <;> rw [h] at hl
    · have he : (("page" : String).data).getLast? = some 'e' := by decide
      rw [he] at hl
      injection hl with h2
      subst h2
      decide
    · have hcon := @getLast?_lcRstrip (strTake (sanitize s) 100).data ['_'] c hl
      intro heq
      subst heq
      exact absurd hcon (by decide)
  · intro url c hl
    rcases url_to_subfolder_name_cases url 50 with h | ⟨s, h⟩ <;> rw [h] at hl
    · have he : (("page" : String).data).getLast? = some 'e' := by decide
      rw [he] at hl
      injection hl with h2
      subst h2
      exact ⟨by decide, by decide⟩
    · unfold finishSubfolder at hl
      have hcon := @getLast?_lcRstrip (strTake (sanitize s) 50).data ['_', ' '] c hl
      constructor
      · intro heq; subst heq; exact absurd hcon (by decide)
      · intro heq; subst heq; exact absurd hcon (by decide)

theorem c8_amended_witness :
    ("" ∉ pathParts "//a//b/") ∧
    url_to_folder_name "http://h/x" 100 = "h_x" ∧ ('x' : Char) ≠ '_' :=
  ⟨c8_amended.1 "//a//b/", by decide, c8_amended.2.1 "http://h/x" 'x' (by decide)⟩

theorem digit_toNat_bounds {c : Char} (h : c.isDigit = true) :
    48 ≤ c.toNat ∧ c.toNat ≤ 57 := by
  unfold Char.isDigit at h
  rw [Bool.and_eq_true] at h
  have h1 := of_decide_eq_true h.1
  have h2 := of_decide_eq_true h.2
  rw [ge_iff_le, UInt32.le_def, BitVec.le_def] at h1
  rw [UInt32.le_def, BitVec.le_def] at h2
  exact ⟨h1, h2⟩

theorem digit_not_illegal {c : Char} (h : c.isDigit = true) : isIllegalChar c = false := by
  have hb := digit_toNat_bounds h
  have hmemf : c ∉ ['<', '>', ':', '\"', '/', '\\', '|', '?', '*'] := by
    intro hm
    simp only [List.mem_cons, List.not_mem_nil, or_false] at hm
    rcases hm with rfl | rfl | rfl | rfl | rfl | rfl | rfl | rfl | rfl <;>
      exact absurd hb (by decide)
  unfold isIllegalChar
  rw [Bool.or_eq_false_iff]
  constructor
  · rw [Bool.eq_false_iff]
    intro htrue
    rw [List.contains] at htrue
    exact hmemf (List.elem_iff.mp htrue)
  · exact decide_eq_false (by omega)

theorem digit_not_strip_char {c : Char} (h : c.isDigit = true) :
    (['_', ' '] : List Char).contains c = false := by
  have hb := digit_toNat_bounds h
  rw [Bool.eq_false_iff]
  intro htrue
  rw [List.contains] at htrue
  have hm := List.elem_iff.mp htrue
  simp only [List.mem_cons, List.not_mem_nil, or_false] at hm
  rcases hm with rfl | rfl <;> exact absurd hb (by decide)

/-- C3: `url_to_subfolder_name` returns `"assignment_456"` for
`.../assignments/456`, `"assignments"` for `.../courses/123/assignments`,
`"123"` for `.../courses/123`; in general, whenever the URL's path has at
least three segments and ends in the known collection name `"assignments"`
followed by a numeric id `d`, the result is `"assignment_" ++ d` (truncated
to at most 50 characters), and every result is at most 50 characters long. -/
theorem c3_subfolder_disambiguation :
    url_to_subfolder_name "https://sit.instructure.com/courses/123/assignments/456" 50 =
      "assignment_456" ∧
    url_to_subfolder_name "https://sit.instructure.com/courses/123/assignments" 50 =
      "assignments" ∧
    url_to_subfolder_name "https://sit.instructure.com/courses/123" 50 = "123" ∧
    (∀ url : String, (url_to_subfolder_name url 50).length ≤ 50) ∧
    (∀ (url : String) (pr : UrlParts) (l : List String) (d : String),
      urlparse? url = some pr →
      pathParts pr.path = l ++ ["assignments", d] →
      l ≠ [] → isDigitStr d = true →
      url_to_subfolder_name url 50 = strTake ("assignment_" ++ d) 50 ∧
      (d.length ≤ 39 → url_to_subfolder_name url 50 = "assignment_" ++ d)) := by
  refine ⟨by decide, by decide, by decide, ?_, ?_⟩
  · intro url
    rcases url_to_subfolder_name_cases url 50 with h | ⟨s, h⟩ <;> rw [h]
    · decide
    · exact length_pipeline (sanitize s) 50 ['_', ' ']
  · intro url pr l d hparse hpp hl hd
    have hdigits : ∀ c ∈ d.data, c.isDigit = true := by
      unfold isDigitStr at hd
      rw [Bool.and_eq_true] at hd
      exact List.all_eq_true.mp hd.2
    have hdne : d.data ≠ [] := by
      unfold isDigitStr at hd
      rw [Bool.and_eq_true] at hd
      intro hnil
      have hde : d = "" := by
        cases d with
        | mk data =>
          dsimp only at hnil
          subst hnil
          rfl
      rw [hde] at hd
      exact Bool.noConfusion hd.1
    have hmain : url_to_subfolder_name url 50 = strTake ("assignment_" ++ d) 50 := by
      have hne : pr.path ≠ "" ∧ pr.path ≠ "/" := by
        constructor <;> intro he <;> rw [he] at hpp
        · have h0 : pathParts "" = [] := by decide
          rw [h0] at hpp
          exact absurd hpp.symm (by simp)
        · have h0 : pathParts "/" = [] := by decide
          rw [h0] at hpp
          exact absurd hpp.symm (by simp)
      obtain ⟨x, l', rfl⟩ := List.exists_cons_of_ne_nil hl
      rw [List.cons_append] at hpp
      obtain ⟨q1, q2, q3, qs, hq⟩ :
          ∃ q1 q2 q3 qs, x :: (l' ++ ["assignments", d]) = q1 :: q2 :: q3 :: qs := by
        cases l' with
        | nil => exact ⟨x, "assignments", d, [], rfl⟩
        | cons a t =>
          rcases ht : t ++ ["assignments", d] with _ | ⟨f, fs⟩
          · simp at ht
          · exact ⟨x, a, f, fs, by rw [List.cons_append, ht]⟩
      have hsplit : x :: (l' ++ ["assignments", d]) =
          ((x :: l') ++ ["assignments"]) ++ [d] := by
        rw [List.append_assoc]
        rfl
      have hlast : (q1 :: q2 :: q3 :: qs : List String).getLast? = some d := by
        rw [← hq, hsplit]
        exact List.getLast?_concat _
      have hsecond : (q1 :: q2 :: q3 :: qs : List String).dropLast.getLast? =
          some "assignments" := by
        rw [← hq, hsplit, List.dropLast_concat]
        exact List.getLast?_concat _
      unfold url_to_subfolder_name
      rw [hparse]
      dsimp only
      rw [if_pos hne, hpp, hq]
      dsimp only
      rw [hlast, hsecond]
      dsimp only
      rw [if_pos ⟨hd, rfl⟩]
      unfold finishSubfolder
      have hleg : ∀ c ∈ ("assignment_" ++ d).data, isIllegalChar c = false := by
        intro c hc
        rw [String.data_append] at hc
        rcases List.mem_append.mp hc with h1 | h2
        · have hall : (("assignment_" : String).data.all fun c => !(isIllegalChar c)) = true := by
            decide
          have hnotc := List.all_eq_true.mp hall c h1
          rwa [Bool.not_eq_true'] at hnotc
        · exact digit_not_illegal (hdigits c h2)
      rw [sanitize_eq_self hleg]
      have htake : (strTake ("assignment_" ++ d) 50).data =
          ("assignment_" : String).data ++ d.data.take 39 := by
        unfold strTake
        show (("assignment_" ++ d : String).data).take 50 = _
        rw [String.data_append, List.take_append_eq_append_take,
            List.take_of_length_le (by decide)]
        rfl
      have hne39 : d.data.take 39 ≠ [] := by
        obtain ⟨e, t, het⟩ := List.exists_cons_of_ne_nil hdne
        rw [het]
        simp
      obtain ⟨c0, hc0⟩ :=
        Option.isSome_iff_exists.mp (List.getLast?_isSome.mpr hne39)
      have hc0mem : c0 ∈ d.data.take 39 := by
        obtain ⟨hne', heq⟩ :=
          List.mem_getLast?_eq_getLast (l := d.data.take 39) (x := c0)
            (Option.mem_def.mpr hc0)
        rw [heq]
        exact List.getLast_mem hne'
      have hc0digit : c0.isDigit = true :=
        hdigits c0 (List.take_subset 39 d.data hc0mem)
      have hlastfull : (strTake ("assignment_" ++ d) 50).data.getLast? = some c0 := by
        rw [htake, List.getLast?_append_of_ne_nil _ hne39, hc0]
      show (⟨lcRstrip (strTake ("assignment_" ++ d) 50).data ['_', ' ']⟩ : String) = _
      rw [lcRstrip_eq_self hlastfull (digit_not_strip_char hc0digit)]
    refine ⟨hmain, ?_⟩
    intro hlen
    rw [hmain]
    unfold strTake
    have hlenfull : ("assignment_" ++ d : String).data.length ≤ 50 := by
      rw [String.data_append, List.length_append]
      have hdl : d.data.length = d.length := rfl
      have h11 : ("assignment_" : String).data.length = 11 := by decide
      omega
    rw [List.take_of_length_le hlenfull]

theorem c3_subfolder_disambiguation_witness :
    url_to_subfolder_name "https://h/x/assignments/0042" 50 = "assignment_0042" := by
  have h := (c3_subfolder_disambiguation.2.2.2.2 "https://h/x/assignments/0042"
      ⟨"https", "h", "/x/assignments/0042", "", "", ""⟩ ["x"] "0042"
      (by decide) (by decide) (by decide) (by decide)).2 (by decide)
  rw [h]
  decide

/-- Spec-side reading of one target comparison in `is_target_url`: the target
is non-empty and parses, and either its path is root/empty and the hosts
agree, or the hosts agree and the candidate's trailing-slash-stripped path
starts with the target's (character-wise, no segment boundary). -/
def targetMatchSpec (pu : UrlParts) (t : String) : Prop :=
  t ≠ "" ∧ ∃ pt, urlparse? t = some pt ∧
    (((pt.path = "/" ∨ pt.path = "") ∧ pu.netloc = pt.netloc) ∨
     ((pt.path ≠ "/" ∧ pt.path ≠ "") ∧ pu.netloc = pt.netloc ∧
       lcStartsWith (lcRstrip pu.path.data ['/']) (lcRstrip pt.path.data ['/']) = true))

theorem matchTargets_iff (pu : UrlParts) :
    ∀ ts : List String, (∀ t ∈ ts, t = "" ∨ urlparse? t ≠ none) →
      ∃ b, matchTargets pu ts = some b ∧ (b = true ↔ ∃ t ∈ ts, targetMatchSpec pu t) := by
  intro ts
  induction ts with
  | nil =>
    intro _
    exact ⟨false, rfl, by simp⟩
  | cons t ts ih =>
    intro hall
    obtain ⟨b, hb, hiff⟩ := ih (fun x hx => hall x (List.mem_cons_of_mem t hx))
    by_cases hte : t = ""
    · refine ⟨b, ?_, ?_⟩
      · unfold matchTargets
        rw [if_pos hte]
        exact hb
      · rw [hiff]
        constructor
        · rintro ⟨u, hu, hs⟩
          exact ⟨u, List.mem_cons_of_mem t hu, hs⟩
        · rintro ⟨u, hu, hs⟩
          rcases List.mem_cons.mp hu with rfl | hu'
          · exact absurd hte hs.1
          · exact ⟨u, hu', hs⟩
    · rcases hall t (List.mem_cons_self t ts) with h | hpne
      · exact absurd h hte
      · obtain ⟨pt, hpt⟩ := Option.ne_none_iff_exists'.mp hpne
        by_cases hroot : pt.path = "/" ∨ pt.path = ""
        · by_cases hnl : pu.netloc = pt.netloc
          · refine ⟨true, ?_, ?_⟩
            · unfold matchTargets
              rw [if_neg hte, hpt]
              dsimp only
              rw [if_pos hroot, if_pos hnl]
            · constructor
              · intro _
                exact ⟨t, List.mem_cons_self t ts, hte, pt, hpt, Or.inl ⟨hroot, hnl⟩⟩
              · intro _
                rfl
          · refine ⟨b, ?_, ?_⟩
            · unfold matchTargets
              rw [if_neg hte, hpt]
              dsimp only
              rw [if_pos hroot, if_neg hnl]
              exact hb
            · rw [hiff]
              constructor
              · rintro ⟨u, hu, hs⟩
                exact ⟨u, List.mem_cons_of_mem t hu, hs⟩
              · rintro ⟨u, hu, hs⟩
                rcases List.mem_cons.mp hu with rfl | hu'
                · obtain ⟨_, pt', hpt', hcase⟩ := hs
                  rw [hpt] at hpt'
                  injection hpt' with he
                  subst he
                  rcases hcase with ⟨_, hnl'⟩ | ⟨hnp, _, _⟩
                  · exact absurd hnl' hnl
                  · rcases hroot with h | h
                    · exact absurd h hnp.1
                    · exact absurd h hnp.2
                · exact ⟨u, hu', hs⟩
        · by_cases hnl : pu.netloc = pt.netloc
          · by_cases hsw :
              lcStartsWith (lcRstrip pu.path.data ['/']) (lcRstrip pt.path.data ['/']) = true
            · refine ⟨true, ?_, ?_⟩
              · unfold matchTargets
                rw [if_neg hte, hpt]
                dsimp only
                rw [if_neg hroot, if_neg (not_not.mpr hnl), if_pos hsw]
              · constructor
                · intro _
                  refine ⟨t, List.mem_cons_self t ts, hte, pt, hpt,
                    Or.inr ⟨⟨?_, ?_⟩, hnl, hsw⟩⟩
                  · intro h
                    exact hroot (Or.inl h)
                  · intro h
                    exact hroot (Or.inr h)
                · intro _
                  rfl
            · refine ⟨b, ?_, ?_⟩
              · unfold matchTargets
                rw [if_neg hte, hpt]
                dsimp only
                rw [if_neg hroot, if_neg (not_not.mpr hnl), if_neg hsw]
                exact hb
              · rw [hiff]
                constructor
                · rintro ⟨u, hu, hs⟩
                  exact ⟨u, List.mem_cons_of_mem t hu, hs⟩
                · rintro ⟨u, hu, hs⟩
                  rcases List.mem_cons.mp hu with rfl | hu'
                  · obtain ⟨_, pt', hpt', hcase⟩ := hs
                    rw [hpt] at hpt'
                    injection hpt' with he
                    subst he
                    rcases hcase with ⟨hr, _⟩ | ⟨_, _, hsw'⟩
                    · exact absurd hr hroot
                    · exact absurd hsw' hsw
                  · exact ⟨u, hu', hs⟩
          · refine ⟨b, ?_, ?_⟩
            · unfold matchTargets
              rw [if_neg hte, hpt]
              dsimp only
              rw [if_neg hroot, if_pos hnl]
              exact hb
            · rw [hiff]
              constructor
              · rintro ⟨u, hu, hs⟩
                exact ⟨u, List.mem_cons_of_mem t hu, hs⟩
              · rintro ⟨u, hu, hs⟩
                rcases List.mem_cons.mp hu with rfl | hu'
                · obtain ⟨_, pt', hpt', hcase⟩ := hs
                  rw [hpt] at hpt'
                  injection hpt' with he
                  subst he
                  rcases hcase with ⟨_, hnl'⟩ | ⟨_, hnl', _⟩
                  · exact absurd hnl' hnl
                  · exact absurd hnl' hnl
                · exact ⟨u, hu', hs⟩

/-- C10: `is_target_url` returns `False` when the candidate URL or the target
list is empty; otherwise (when the URL parses and each non-empty target
parses) it returns `True` exactly when some target matches — any same-host
URL for a target whose path is empty or `/`, else same host plus a
character-wise path-prefix test after stripping trailing slashes. In
particular target path `/courses/12` also matches `/courses/123` (no
segment-boundary check). -/
theorem c10_is_target_url_semantics :
    (∀ targets, is_target_url "" targets = some false) ∧
    (∀ url, is_target_url url [] = some false) ∧
    (∀ (url : String) (targets : List String) (pu : UrlParts),
      url ≠ "" → targets ≠ [] → urlparse? url = some pu →
      (∀ t ∈ targets, t = "" ∨ urlparse? t ≠ none) →
      ∃ b, is_target_url url targets = some b ∧
        (b = true ↔ ∃ t ∈ targets, targetMatchSpec pu t)) ∧
    is_target_url "http://h/courses/123" ["http://h/courses/12"] = some true := by
  refine ⟨?_, ?_, ?_, by decide⟩
  · intro targets
    unfold is_target_url
    rw [if_pos (Or.inl rfl)]
  · intro url
    unfold is_target_url
    rw [if_pos (Or.inr rfl)]
  · intro url targets pu hu ht hp hall
    unfold is_target_url
    rw [if_neg (by push_neg; exact ⟨hu, ht⟩), hp]
    exact matchTargets_iff pu targets hall

theorem c10_is_target_url_semantics_witness :
    ∃ b, is_target_url "http://h/a/b" ["", "http://h/a"] = some b ∧
      (b = true ↔ ∃ t ∈ ["", "http://h/a"],
        targetMatchSpec ⟨"http", "h", "/a/b", "", "", ""⟩ t) :=
  c10_is_target_url_semantics.2.2.1 "http://h/a/b" ["", "http://h/a"]
    ⟨"http", "h", "/a/b", "", "", ""⟩ (by decide) (by decide) (by decide) (by decide)

theorem gen_paths_shape (output_dir url ts : String) (parent cname : Option String)
    (D : String) (h : generate_dir? output_dir url parent cname = some D) :
    generate_file_paths? output_dir url ts parent cname =
      some (D ++ "/" ++ ts ++ ".html", D ++ "/" ++ ts ++ ".png") := by
  unfold generate_file_paths?
  rw [h]
  rfl

/-- C1, counterexample: in the actual pipeline the assignment detail page's
directory is the bare assignment id under `course_<id>` — for the traversal
root → course 123 → assignments → assignment 456 the stored path is
`output/sit.instructure.com/course_123/456/<timestamp>.html`, which contains
neither an `assignment_456` directory nor an `assignments` directory, so the
claimed shape `<root>/<host>_.../123/assignments/assignment_456/<timestamp>.html`
does not hold. (`capture_from_assignments_html` passes the extracted id as
the `course_name` label, which overrides `url_to_subfolder_name`.) -/
theorem c1_counterexample :
    extractAssignmentId "https://sit.instructure.com/courses/123/assignments/456".data =
      some "456" ∧
    generate_file_paths? "output" "https://sit.instructure.com/courses/123/assignments/456"
      "20250101_000000" (some "output/sit.instructure.com/course_123/20250101_000000.html")
      (some "456") =
      some ("output/sit.instructure.com/course_123/456/20250101_000000.html",
            "output/sit.instructure.com/course_123/456/20250101_000000.png") ∧
    strContains "output/sit.instructure.com/course_123/456/20250101_000000.html"
      "assignment_456" = false ∧
    strContains "output/sit.instructure.com/course_123/456/20250101_000000.html"
      "/assignments/" = false := by decide

/-- C1, amended: the stored capture paths for the traversal root →
course(123) → assignments → assignment(456) are
`<root>/<host>/<timestamp>.html` for the dashboard,
`<root>/<host>/course_123/<timestamp>.html` for the assignments listing
(course-id override) and `<root>/<host>/course_123/456/<timestamp>.html` for
the assignment detail (assignment id passed as the label). The directory is
the same for every timestamp — re-running only adds a new timestamped file in
the same directory — and `generate_file_paths` is a pure function of (URL,
optional label, parent path, output dir, timestamp). -/
theorem c1_tree_idempotent_naming (tsD tsA tsF : String) :
    generate_file_paths? "output" "https://sit.instructure.com/" tsD none none =
      some ("output/sit.instructure.com" ++ "/" ++ tsD ++ ".html",
            "output/sit.instructure.com" ++ "/" ++ tsD ++ ".png") ∧
    generate_file_paths? "output" "https://sit.instructure.com/courses/123/assignments" tsA
        (some "output/sit.instructure.com/20250101_000000.html") none =
      some ("output/sit.instructure.com/course_123" ++ "/" ++ tsA ++ ".html",
            "output/sit.instructure.com/course_123" ++ "/" ++ tsA ++ ".png") ∧
    generate_file_paths? "output" "https://sit.instructure.com/courses/123/assignments/456" tsF
        (some "output/sit.instructure.com/course_123/20250101_010000.html")
        (extractAssignmentId
          "https://sit.instructure.com/courses/123/assignments/456".data) =
      some ("output/sit.instructure.com/course_123/456" ++ "/" ++ tsF ++ ".html",
            "output/sit.instructure.com/course_123/456" ++ "/" ++ tsF ++ ".png") :=
  ⟨gen_paths_shape _ _ _ _ _ _ (by decide),
   gen_paths_shape _ _ _ _ _ _ (by decide),
   gen_paths_shape _ _ _ _ _ _ (by decide)⟩

/-- C2: whenever the post-navigation URL's host differs from the intended
URL's host, or both stripped paths are non-empty and the current path does
not start with the intended path, `capture_url` discards the capture: it
returns `None` (no `CaptureResult`) and writes no file. -/
theorem c2_redirect_discard (output_dir url ts : String) (parent cname : Option String)
    (env : CaptureEnv) (cu : String) (pu pc : UrlParts)
    (hopen : env.openedUrl = some cu)
    (hpu : urlparse? url = some pu) (hpc : urlparse? cu = some pc)
    (hbad : pc.netloc ≠ pu.netloc ∨
      (strRstrip pu.path ['/'] ≠ "" ∧ strRstrip pc.path ['/'] ≠ "" ∧
        lcStartsWith (strRstrip pc.path ['/']).data (strRstrip pu.path ['/']).data = false)) :
    capture_url output_dir url ts parent cname env = (Except.ok none, []) := by
  unfold capture_url
  rw [hopen]
  dsimp only
  rw [hpu, hpc]
  dsimp only
  by_cases hnl : pc.netloc ≠ pu.netloc
  · rw [if_pos hnl]
  · rw [if_neg hnl]
    rcases hbad with h | ⟨h1, h2, h3⟩
    · exact absurd h hnl
    · rw [if_pos ⟨h1, h2, by rw [h3]; exact Bool.false_ne_true⟩]

theorem c2_redirect_discard_witness :
    capture_url "output" "https://sit.instructure.com/courses/1" "T" none none
      ⟨some "https://login.example.com/login", true, true⟩ = (Except.ok none, []) :=
  c2_redirect_discard "output" "https://sit.instructure.com/courses/1" "T" none none
    ⟨some "https://login.example.com/login", true, true⟩ "https://login.example.com/login"
    ⟨"https", "sit.instructure.com", "/courses/1", "", "", ""⟩
    ⟨"https", "login.example.com", "/login", "", "", ""⟩
    rfl (by decide) (by decide) (Or.inl (by decide))

/-- C5: every write failure in `capture_url` raises a `SaveError` carrying
the offending file path: if the HTML write fails, the error names the HTML
path and nothing has been written; if the HTML write succeeds and the
screenshot write fails, the error names the screenshot path while the
already-written HTML file stays in the write log — it is never deleted or
rolled back (the model has no delete operation and the log keeps the HTML
entry). -/
theorem c5_partial_write_retention (output_dir url ts : String)
    (parent cname : Option String) (cu : String) (pu pc : UrlParts)
    (html_path screenshot_path : String)
    (hpu : urlparse? url = some pu) (hpc : urlparse? cu = some pc)
    (hnl : pc.netloc = pu.netloc)
    (hpath : ¬ (strRstrip pu.path ['/'] ≠ "" ∧ strRstrip pc.path ['/'] ≠ "" ∧
      ¬ lcStartsWith (strRstrip pc.path ['/']).data (strRstrip pu.path ['/']).data = true))
    (hasg : ¬ (strContains (strRstrip pu.path ['/']) "/assignments" = true ∧
      ¬ strContains (strRstrip pc.path ['/']) "/assignments" = true))
    (hgen : generate_file_paths? output_dir url ts parent cname =
      some (html_path, screenshot_path)) :
    (∀ pngOk : Bool, capture_url output_dir url ts parent cname ⟨some cu, false, pngOk⟩ =
      (Except.error (CaptureErr.save html_path), [])) ∧
    capture_url output_dir url ts parent cname ⟨some cu, true, false⟩ =
      (Except.error (CaptureErr.save screenshot_path), [html_path]) := by
  constructor
  · intro pngOk
    unfold capture_url
    dsimp only
    rw [hpu, hpc]
    dsimp only
    rw [if_neg (fun hne => hne hnl), if_neg hpath, if_neg hasg, hgen]
    dsimp only
    rw [if_pos (by decide)]
  · unfold capture_url
    dsimp only
    rw [hpu, hpc]
    dsimp only
    rw [if_neg (fun hne => hne hnl), if_neg hpath, if_neg hasg, hgen]
    dsimp only
    rw [if_neg (by decide), if_pos (by decide)]

theorem c5_partial_write_retention_witness :
    capture_url "output" "https://h/courses/1" "T" none none ⟨some "https://h/courses/1", true, false⟩ =
      (Except.error (CaptureErr.save "output/h_courses_1/T.png"), ["output/h_courses_1/T.html"]) ∧
    capture_url "output" "https://h/courses/1" "T" none none ⟨some "https://h/courses/1", false, true⟩ =
      (Except.error (CaptureErr.save "output/h_courses_1/T.html"), []) := by
  have h := c5_partial_write_retention "output" "https://h/courses/1" "T" none none
    "https://h/courses/1" ⟨"https", "h", "/courses/1", "", "", ""⟩
    ⟨"https", "h", "/courses/1", "", "", ""⟩
    "output/h_courses_1/T.html" "output/h_courses_1/T.png"
    (by decide) (by decide) (by decide) (by decide) (by decide) (by decide)
  exact ⟨h.2, h.1 true⟩

theorem waitLoop_isSome (targets : List String) (urlAt : Nat → String) (timeout : Nat) :
    ∀ (fuel n : Nat), 1 ≤ fuel → timeout + 5000 ≤ (fuel + n) * 5000 →
      (waitLoop targets urlAt timeout n fuel).isSome = true := by
  intro fuel
  induction fuel with
  | zero =>
    intro n h1 _
    exact absurd h1 (by omega)
  | succ f ih =>
    intro n _ hsum
    unfold waitLoop
    cases h : is_target_url (urlAt n) targets with
    | none => rfl
    | some b =>
      cases b with
      | true => rfl
      | false =>
        by_cases ht : timeout ≤ n * 5000
        · rw [if_pos ht]
          rfl
        · rw [if_neg ht]
          exact ih (n + 1) (by omega) (by omega)

theorem waitLoop_sound (targets : List String) (urlAt : Nat → String) (timeout : Nat) :
    ∀ (fuel n : Nat) (r : WaitOutcome),
      waitLoop targets urlAt timeout n fuel = some r →
      (∀ m, r = WaitOutcome.matched m →
        n ≤ m ∧ is_target_url (urlAt m) targets = some true ∧
        ∀ k, n ≤ k → k < m →
          is_target_url (urlAt k) targets = some false ∧ k * 5000 < timeout) ∧
      (∀ m, r = WaitOutcome.timedOut m →
        n ≤ m ∧ is_target_url (urlAt m) targets = some false ∧ timeout ≤ m * 5000 ∧
        ∀ k, n ≤ k → k < m →
          is_target_url (urlAt k) targets = some false ∧ k * 5000 < timeout) ∧
      (∀ m, r = WaitOutcome.raised m → is_target_url (urlAt m) targets = none) ∧
      r ≠ WaitOutcome.noTargets := by
  intro fuel
  induction fuel with
  | zero =>
    intro n r h
    exact Option.noConfusion h
  | succ f ih =>
    intro n r h
    unfold waitLoop at h
    cases htgt : is_target_url (urlAt n) targets with
    | none =>
      rw [htgt] at h
      injection h with h
      subst h
      refine ⟨?_, ?_, ?_, ?_⟩
      · intro m hm; exact WaitOutcome.noConfusion hm
      · intro m hm; exact WaitOutcome.noConfusion hm
      · intro m hm
        injection hm with hm
        subst hm
        exact htgt
      · intro hm; exact WaitOutcome.noConfusion hm
    | some b =>
      rw [htgt] at h
      cases b with
      | true =>
        injection h with h
        subst h
        refine ⟨?_, ?_, ?_, ?_⟩
        · intro m hm
          injection hm with hm
          subst hm
          exact ⟨Nat.le_refl n, htgt, fun k hk1 hk2 => absurd hk2 (by omega)⟩
        · intro m hm; exact WaitOutcome.noConfusion hm
        · intro m hm; exact WaitOutcome.noConfusion hm
        · intro hm; exact WaitOutcome.noConfusion hm
      | false =>
        by_cases ht : timeout ≤ n * 5000
        · rw [if_pos ht] at h
          injection h with h
          subst h
          refine ⟨?_, ?_, ?_, ?_⟩
          · intro m hm; exact WaitOutcome.noConfusion hm
          · intro m hm
            injection hm with hm
            subst hm
            exact ⟨Nat.le_refl n, htgt, ht, fun k hk1 hk2 => absurd hk2 (by omega)⟩
          · intro m hm; exact WaitOutcome.noConfusion hm
          · intro hm; exact WaitOutcome.noConfusion hm
        · rw [if_neg ht] at h
          obtain ⟨hM, hT, hR, hN⟩ := ih (n + 1) r h
          refine ⟨?_, ?_, hR, hN⟩
          · intro m hm
            obtain ⟨hle, htrue, hall⟩ := hM m hm
            refine ⟨by omega, htrue, ?_⟩
            intro k hk1 hk2
            by_cases hkn : k = n
            · subst hkn
              exact ⟨htgt, by omega⟩
            · exact hall k (by omega) hk2
          · intro m hm
            obtain ⟨hle, hfalse, hto, hall⟩ := hT m hm
            refine ⟨by omega, hfalse, hto, ?_⟩
            intro k hk1 hk2
            by_cases hkn : k = n
            · subst hkn
              exact ⟨htgt, by omega⟩
            · exact hall k (by omega) hk2

/-- C9, counterexample: the redirect-settling wait CAN raise — if a polled
page URL has an authority with an unbalanced bracket, the `urlparse` call
inside `is_target_url` raises `ValueError`, which propagates out of
`_wait_for_target_page`; so "never raises" does not hold unconditionally. -/
theorem c9_counterexample :
    wait_for_target_page ["https://h/a"] (fun _ => "http://[") 30000 =
      some (WaitOutcome.raised 0) ∧
    is_target_url "http://[" ["https://h/a"] = none := by decide

/-- C9, amended: the redirect-settling wait always terminates — with no
configured target URLs it returns the current page immediately; otherwise it
polls the page URL at the fixed 5 s interval, returns the page at the first
poll whose URL matches a target, and once the elapsed time reaches the
ceiling it returns the current page anyway (every earlier poll having been a
non-matching one made before the ceiling); and it never raises provided
every polled URL (and configured target) parses — a `ValueError` from
`urlparse` on a bracket-malformed URL is the one escape. -/
theorem c9_wait_terminates (targets : List String) (urlAt : Nat → String) (timeout : Nat) :
    (∃ r, wait_for_target_page targets urlAt timeout = some r) ∧
    (targets = [] →
      wait_for_target_page targets urlAt timeout = some WaitOutcome.noTargets) ∧
    (∀ r, wait_for_target_page targets urlAt timeout = some r →
      (∀ n, r = WaitOutcome.matched n →
        is_target_url (urlAt n) targets = some true ∧
        ∀ k, k < n → is_target_url (urlAt k) targets = some false ∧ k * 5000 < timeout) ∧
      (∀ n, r = WaitOutcome.timedOut n →
        timeout ≤ n * 5000 ∧
        ∀ k, k < n → is_target_url (urlAt k) targets = some false ∧ k * 5000 < timeout) ∧
      (∀ n, r = WaitOutcome.raised n → is_target_url (urlAt n) targets = none)) ∧
    ((∀ n, is_target_url (urlAt n) targets ≠ none) →
      ∀ n, wait_for_target_page targets urlAt timeout ≠ some (WaitOutcome.raised n)) := by
  refine ⟨?_, ?_, ?_, ?_⟩
  · unfold wait_for_target_page
    by_cases he : targets = []
    · rw [if_pos he]
      exact ⟨WaitOutcome.noTargets, rfl⟩
    · rw [if_neg he]
      have hs := waitLoop_isSome targets urlAt timeout (timeout / 5000 + 2) 0
        (by omega) (by omega)
      exact Option.isSome_iff_exists.mp hs
  · intro he
    unfold wait_for_target_page
    rw [if_pos he]
  · intro r hr
    unfold wait_for_target_page at hr
    by_cases he : targets = []
    · rw [if_pos he] at hr
      injection hr with hr
      subst hr
      refine ⟨?_, ?_, ?_⟩
      · intro n hn; exact WaitOutcome.noConfusion hn
      · intro n hn; exact WaitOutcome.noConfusion hn
      · intro n hn; exact WaitOutcome.noConfusion hn
    · rw [if_neg he] at hr
      obtain ⟨hM, hT, hR, _⟩ := waitLoop_sound targets urlAt timeout _ 0 r hr
      refine ⟨?_, ?_, hR⟩
      · intro n hn
        obtain ⟨_, htrue, hall⟩ := hM n hn
        exact ⟨htrue, fun k hk => hall k (Nat.zero_le k) hk⟩
      · intro n hn
        obtain ⟨_, _, hto, hall⟩ := hT n hn
        exact ⟨hto, fun k hk => hall k (Nat.zero_le k) hk⟩
  · intro hnone n hr
    unfold wait_for_target_page at hr
    by_cases he : targets = []
    · rw [if_pos he] at hr
      injection hr with hr
      exact WaitOutcome.noConfusion hr
    · rw [if_neg he] at hr
      obtain ⟨_, _, hR, _⟩ := waitLoop_sound targets urlAt timeout _ 0 _ hr
      exact hnone n (hR n rfl)

theorem c9_wait_terminates_witness :
    wait_for_target_page ["https://h/a"] (fun _ => "https://e/x") 30000 ≠
      some (WaitOutcome.raised 5) :=
  (c9_wait_terminates ["https://h/a"] (fun _ => "https://e/x") 30000).2.2.2
    (fun _ => by decide) 5

/-- C4, counterexample: a tab whose URL contains `/assignments/` but ends
exactly in `/quizzes` IS returned by the resolver's first loop (the
`/quizzes` listing exclusion is applied only inside the quizzes branch, and
the assignments branch accepts the URL first), contradicting the claim's
"excluding URLs that end exactly in /assignments or /quizzes". -/
theorem c4_counterexample :
    get_target_page_after_click ["https://x/courses/1/assignments/2/quizzes"] = some 0 ∧
    lcEndsWith "https://x/courses/1/assignments/2/quizzes".data "/quizzes".data = true := by
  decide

/-- C4, amended: given the tabs `[listing, listing/99]` with the original
page being the assignments listing, the resolver returns the tab ending in
`/99`, never the listing tab; in general it scans tabs most-recently-opened
first and returns the first non-special tab accepted by `detailPageTest`:
a URL containing `/assignments/` is taken when it does not end in
`/assignments` and has a non-empty part after the first `/assignments/`
(even if it ends in `/quizzes`), otherwise the same per-branch test runs for
`/quizzes/` — the listing exclusions apply per collection, not globally. -/
theorem c4_resolver_first_detail :
    get_target_page_after_click
      ["https://x/courses/1/assignments", "https://x/courses/1/assignments/99"] = some 1 ∧
    (∀ (pages : List String) (i : Nat) (u : String),
      pages.enum.reverse.find? (fun p =>
        !isSpecialPage p.2 && detailPageTest (strRstrip p.2 ['/'])) = some (i, u) →
      get_target_page_after_click pages = some i) := by
  refine ⟨by decide, ?_⟩
  intro pages i u hfind
  unfold get_target_page_after_click scanPages
  rw [hfind]
  rfl

theorem c4_resolver_first_detail_witness :
    get_target_page_after_click
      ["https://x/courses/1/assignments", "https://x/courses/1/assignments/99"] = some 1 :=
  c4_resolver_first_detail.2
    ["https://x/courses/1/assignments", "https://x/courses/1/assignments/99"] 1
    "https://x/courses/1/assignments/99" (by decide)

/-! ## Extractor support lemmas -/

theorem getTextStrip_sectionButton (lbl cid : String) :
    getTextStrip (sectionButton lbl cid) = pyTrim lbl := rfl

theorem togglerMatches_sectionButton (q lbl cid : String) :
    togglerMatches q (sectionButton lbl cid) =
      lcContains (strLower (pyTrim lbl)).data (strLower q).data := rfl

theorem togglerMatches_igLink (q a b : String) : togglerMatches q (igLink a b) = false := rfl

theorem forestElems_links (ls : List (String × String)) :
    forestElems (forestOf (ls.map (fun p => igLink p.1 p.2))) =
      ls.map (fun p => igLink p.1 p.2) := by
  induction ls with
  | nil => rfl
  | cons p rest ih =>
    show forestElems (HForest.cons (igLink p.1 p.2) (forestOf (rest.map _))) = _
    unfold forestElems
    rw [show nodeElems (igLink p.1 p.2) = [igLink p.1 p.2] from rfl, ih]
    rfl

theorem forestFind_links_none (q : String) (anc : List HNode) (ls : List (String × String)) :
    forestFindWithPath (togglerMatches q) anc
      (forestOf (ls.map (fun p => igLink p.1 p.2))) = none := by
  induction ls with
  | nil => rfl
  | cons p rest ih =>
    show forestFindWithPath _ anc
      (HForest.cons (igLink p.1 p.2) (forestOf (rest.map _))) = none
    unfold forestFindWithPath
    rw [show nodeFindWithPath (togglerMatches q) anc (igLink p.1 p.2) = none from rfl]
    exact ih

theorem filter_igLinks (ls : List (String × String)) :
    (ls.map (fun p => igLink p.1 p.2)).filter
      (fun n => tagOf n = "a" && (classesOf n).contains "ig-title") =
      ls.map (fun p => igLink p.1 p.2) := by
  induction ls with
  | nil => rfl
  | cons p rest ih =>
    rw [List.map_cons, List.filter_cons_of_pos (by rfl), ih]

theorem filter_anchors_igLinks (ls : List (String × String)) :
    ((ls.map (fun p => igLink p.1 p.2)).filter (fun n => tagOf n = "a")).length =
      ls.length := by
  induction ls with
  | nil => rfl
  | cons p rest ih =>
    rw [List.map_cons, List.filter_cons_of_pos (by rfl), List.length_cons, ih]
    rfl

theorem nodeFindWithPath_pos {p : HNode → Bool} {anc : List HNode}
    {t : String} {a : List (String × String)} {cs : HForest}
    (h : p (HNode.elem t a cs) = true) :
    nodeFindWithPath p anc (HNode.elem t a cs) = some (HNode.elem t a cs, anc) := by
  unfold nodeFindWithPath
  rw [if_pos h]

theorem nodeFindWithPath_neg {p : HNode → Bool} {anc : List HNode}
    {t : String} {a : List (String × String)} {cs : HForest}
    (h : p (HNode.elem t a cs) = false) :
    nodeFindWithPath p anc (HNode.elem t a cs) =
      forestFindWithPath p (HNode.elem t a cs :: anc) cs := by
  unfold nodeFindWithPath
  rw [if_neg (by rw [h]; exact Bool.false_ne_true)]

theorem forestFind_cons_some {p : HNode → Bool} {anc : List HNode} {n : HNode}
    {f : HForest} {r : HNode × List HNode} (h : nodeFindWithPath p anc n = some r) :
    forestFindWithPath p anc (HForest.cons n f) = some r := by
  unfold forestFindWithPath
  rw [h]

theorem forestFind_cons_none {p : HNode → Bool} {anc : List HNode} {n : HNode}
    {f : HForest} (h : nodeFindWithPath p anc n = none) :
    forestFindWithPath p anc (HForest.cons n f) = forestFindWithPath p anc f := by
  have hu : forestFindWithPath p anc (HForest.cons n f) =
      (match nodeFindWithPath p anc n with
       | some r => some r
       | none => forestFindWithPath p anc f) := rfl
  rw [hu, h]

theorem forestFind_nil_none {p : HNode → Bool} {anc : List HNode} :
    forestFindWithPath p anc HForest.nil = none := rfl

theorem forestFind_twoSection_found (q l1 c1 : String) (ls1 : List (String × String))
    (l2 c2 : String) (ls2 : List (String × String))
    (hq : lcContains (strLower (pyTrim l1)).data (strLower q).data = true) :
    forestFindWithPath (togglerMatches q) [] (twoSectionDoc l1 c1 ls1 l2 c2 ls2) =
      some (sectionButton l1 c1,
        [el "body" [] [sectionButton l1 c1, sectionContainer c1 ls1,
            sectionButton l2 c2, sectionContainer c2 ls2],
         el "html" [] [el "body" [] [sectionButton l1 c1, sectionContainer c1 ls1,
            sectionButton l2 c2, sectionContainer c2 ls2]]]) := by
  have hpred : togglerMatches q (sectionButton l1 c1) = true := by
    rw [togglerMatches_sectionButton]
    exact hq
  exact forestFind_cons_some
    ((nodeFindWithPath_neg rfl).trans
      (forestFind_cons_some
        ((nodeFindWithPath_neg rfl).trans
          (forestFind_cons_some (nodeFindWithPath_pos hpred)))))

theorem forestFind_twoSection_missing (q l1 c1 : String) (ls1 : List (String × String))
    (l2 c2 : String) (ls2 : List (String × String))
    (hq1 : lcContains (strLower (pyTrim l1)).data (strLower q).data = false)
    (hq2 : lcContains (strLower (pyTrim l2)).data (strLower q).data = false) :
    forestFindWithPath (togglerMatches q) [] (twoSectionDoc l1 c1 ls1 l2 c2 ls2) = none := by
  have hp1 : togglerMatches q (sectionButton l1 c1) = false := by
    rw [togglerMatches_sectionButton]
    exact hq1
  have hp2 : togglerMatches q (sectionButton l2 c2) = false := by
    rw [togglerMatches_sectionButton]
    exact hq2
  have hb1 : ∀ anc, nodeFindWithPath (togglerMatches q) anc (sectionButton l1 c1) = none :=
    fun anc => (nodeFindWithPath_neg hp1).trans rfl
  have hb2 : ∀ anc, nodeFindWithPath (togglerMatches q) anc (sectionButton l2 c2) = none :=
    fun anc => (nodeFindWithPath_neg hp2).trans rfl
  have hc : ∀ (anc : List HNode) (cid : String) (ls : List (String × String)),
      nodeFindWithPath (togglerMatches q) anc (sectionContainer cid ls) = none :=
    fun anc cid ls => (nodeFindWithPath_neg rfl).trans (forestFind_links_none q _ ls)
  exact (forestFind_cons_none
    ((nodeFindWithPath_neg rfl).trans
      ((forestFind_cons_none
        ((nodeFindWithPath_neg rfl).trans
          ((forestFind_cons_none (hb1 _)).trans
            ((forestFind_cons_none (hc _ c1 ls1)).trans
              ((forestFind_cons_none (hb2 _)).trans
                ((forestFind_cons_none (hc _ c2 ls2)).trans
                  forestFind_nil_none)))))).trans forestFind_nil_none))).trans
    forestFind_nil_none

theorem buildAssignmentLink_igLink (doc : HForest) (aria a b : String) (hne : a ≠ "")
    (hor : lcStartsWith a.data "http://".data = true ∨
      lcStartsWith a.data "https://".data = true) :
    buildAssignmentLink doc aria (igLink a b) =
      some ⟨a, pyTrim b, aria, pyTrim b⟩ := by
  have hb : (lcStartsWith a.data "http://".data || lcStartsWith a.data "https://".data) =
      true := by
    rcases hor with h | h
    · rw [h, Bool.true_or]
    · rw [h, Bool.or_true]
  unfold buildAssignmentLink
  rw [show (attrOf (igLink a b) "href").getD "" = a from rfl]
  rw [if_neg hne, hb]
  dsimp only
  rw [if_pos rfl, show getTextStrip (igLink a b) = pyTrim b from rfl]

theorem filterMap_igLinks {β : Type} (f : HNode → Option β) (g : String × String → β)
    (ls : List (String × String))
    (hf : ∀ p ∈ ls, f (igLink p.1 p.2) = some (g p)) :
    (ls.map (fun p => igLink p.1 p.2)).filterMap f = ls.map g := by
  induction ls with
  | nil => rfl
  | cons p rest ih =>
    rw [List.map_cons, List.filterMap_cons, hf p (List.mem_cons_self p rest)]
    dsimp only
    rw [ih (fun x hx => hf x (List.mem_cons_of_mem p hx)), List.map_cons]

theorem find_divId_twoSection (l1 c1 : String) (ls1 : List (String × String))
    (l2 c2 : String) (ls2 : List (String × String)) :
    (forestElems (twoSectionDoc l1 c1 ls1 l2 c2 ls2)).find?
      (fun n => tagOf n = "div" && attrOf n "id" = some c1) =
      some (sectionContainer c1 ls1) :=
  (List.find?_cons_of_neg _ (fun hcl => Bool.noConfusion hcl)).trans
    ((List.find?_cons_of_neg _ (fun hcl => Bool.noConfusion hcl)).trans
      ((List.find?_cons_of_neg _ (fun hcl => Bool.noConfusion hcl)).trans
        (List.find?_cons_of_pos _
          ((Bool.and_eq_true _ _).mpr ⟨rfl, decide_eq_true rfl⟩))))

/-- C6: on a page with two named collapsible sections (toggle buttons of
class `element_toggler` with `aria-controls` ids, each controlling its own
link container), calling the extractor with a label matching the first
section's toggle text (case-insensitively) returns exactly that section's
links — one entry per `a.ig-title` anchor in that container, never the other
section's — so the count equals the number of anchors in the container; when
no toggle button's text matches the label, or the toggle's content container
is missing, the extractor returns `[]` and (being a total function) raises
nothing. -/
theorem c6_extract_section_scoping :
    (∀ (q l1 c1 : String) (ls1 : List (String × String)) (l2 c2 : String)
        (ls2 : List (String × String)),
      lcContains (strLower (pyTrim l1)).data (strLower q).data = true →
      c1 ≠ "" →
      (∀ p ∈ ls1, p.1 ≠ "" ∧ (lcStartsWith p.1.data "http://".data = true ∨
        lcStartsWith p.1.data "https://".data = true)) →
      extract_assignments_by_title (twoSectionDoc l1 c1 ls1 l2 c2 ls2) q =
        ls1.map (fun p => ⟨p.1, pyTrim p.2, c1, pyTrim p.2⟩) ∧
      ((descElems (sectionContainer c1 ls1)).filter (fun n => tagOf n = "a")).length =
        (extract_assignments_by_title (twoSectionDoc l1 c1 ls1 l2 c2 ls2) q).length) ∧
    (∀ (q l1 c1 : String) (ls1 : List (String × String)) (l2 c2 : String)
        (ls2 : List (String × String)),
      lcContains (strLower (pyTrim l1)).data (strLower q).data = false →
      lcContains (strLower (pyTrim l2)).data (strLower q).data = false →
      extract_assignments_by_title (twoSectionDoc l1 c1 ls1 l2 c2 ls2) q = []) ∧
    (∀ lbl cid q : String, extract_assignments_by_title (buttonOnlyDoc lbl cid) q = []) := by
  refine ⟨?_, ?_, ?_⟩
  · intro q l1 c1 ls1 l2 c2 ls2 hq hc1 hrefs
    have hres : extract_assignments_by_title (twoSectionDoc l1 c1 ls1 l2 c2 ls2) q =
        ls1.map (fun p => ⟨p.1, pyTrim p.2, c1, pyTrim p.2⟩) := by
      unfold extract_assignments_by_title
      rw [forestFind_twoSection_found q l1 c1 ls1 l2 c2 ls2 hq]
      dsimp only
      rw [show (attrOf (sectionButton l1 c1) "aria-controls").getD "" = c1 from rfl]
      rw [if_neg hc1]
      rw [find_divId_twoSection l1 c1 ls1 l2 c2 ls2]
      dsimp only
      rw [show descElems (sectionContainer c1 ls1) =
          forestElems (forestOf (ls1.map fun p => igLink p.1 p.2)) from rfl]
      rw [forestElems_links ls1, filter_igLinks ls1]
      exact filterMap_igLinks _ _ ls1
        (fun p hp => buildAssignmentLink_igLink _ c1 p.1 p.2 (hrefs p hp).1 (hrefs p hp).2)
    refine ⟨hres, ?_⟩
    rw [hres, List.length_map,
        show descElems (sectionContainer c1 ls1) =
          forestElems (forestOf (ls1.map fun p => igLink p.1 p.2)) from rfl,
        forestElems_links ls1, filter_anchors_igLinks ls1]
  · intro q l1 c1 ls1 l2 c2 ls2 h1 h2
    unfold extract_assignments_by_title
    rw [forestFind_twoSection_missing q l1 c1 ls1 l2 c2 ls2 h1 h2]
  · intro lbl cid q
    by_cases hm : lcContains (strLower (pyTrim lbl)).data (strLower q).data = true
    · have hfind : forestFindWithPath (togglerMatches q) [] (buttonOnlyDoc lbl cid) =
          some (sectionButton lbl cid,
            [el "body" [] [sectionButton lbl cid],
             el "html" [] [el "body" [] [sectionButton lbl cid]]]) :=
        forestFind_cons_some
          ((nodeFindWithPath_neg rfl).trans
            (forestFind_cons_some
              ((nodeFindWithPath_neg rfl).trans
                (forestFind_cons_some (nodeFindWithPath_pos
                  ((togglerMatches_sectionButton q lbl cid).trans hm))))))
      unfold extract_assignments_by_title
      rw [hfind]
      dsimp only
      rw [show (attrOf (sectionButton lbl cid) "aria-controls").getD "" = cid from rfl]
      by_cases hcid : cid = ""
      · rw [if_pos hcid]
      · rw [if_neg hcid]
        have hbyId : (forestElems (buttonOnlyDoc lbl cid)).find?
            (fun n => tagOf n = "div" && attrOf n "id" = some cid) = none :=
          (List.find?_cons_of_neg _ (fun hcl => Bool.noConfusion hcl)).trans
            ((List.find?_cons_of_neg _ (fun hcl => Bool.noConfusion hcl)).trans
              ((List.find?_cons_of_neg _ (fun hcl => Bool.noConfusion hcl)).trans rfl))
        have hbyList : (forestElems (buttonOnlyDoc lbl cid)).find?
            (fun n => tagOf n = "div" && (classesOf n).contains "assignment-list" &&
              (match attrOf n "id" with
               | some idv => idv ≠ "" && strContains idv cid
               | none => false)) = none :=
          (List.find?_cons_of_neg _ (fun hcl => Bool.noConfusion hcl)).trans
            ((List.find?_cons_of_neg _ (fun hcl => Bool.noConfusion hcl)).trans
              ((List.find?_cons_of_neg _ (fun hcl => Bool.noConfusion hcl)).trans rfl))
        rw [hbyId]
        dsimp only
        rw [hbyList]
        dsimp only
        rw [show ancestorGroupList
            [el "body" [] [sectionButton lbl cid],
             el "html" [] [el "body" [] [sectionButton lbl cid]]] = none from rfl]
    · have hpredf : togglerMatches q (sectionButton lbl cid) = false := by
        rw [togglerMatches_sectionButton]
        exact Bool.eq_false_iff.mpr hm
      have hfind : forestFindWithPath (togglerMatches q) [] (buttonOnlyDoc lbl cid) =
          none :=
        (forestFind_cons_none
          ((nodeFindWithPath_neg rfl).trans
            ((forestFind_cons_none
              ((nodeFindWithPath_neg rfl).trans
                ((forestFind_cons_none
                  ((nodeFindWithPath_neg hpredf).trans rfl)).trans
                  forestFind_nil_none))).trans forestFind_nil_none))).trans
          forestFind_nil_none
      unfold extract_assignments_by_title
      rw [hfind]

theorem c6_extract_section_scoping_witness :
    extract_assignments_by_title
      (twoSectionDoc "Past Assignments" "assignment_group_past"
        [("https://x/courses/1/assignments/9", "HW 9")]
        "Upcoming Assignments" "assignment_group_upcoming"
        [("https://x/courses/1/assignments/7", "HW 7")]) "past assignments" =
      [⟨"https://x/courses/1/assignments/9", "HW 9", "assignment_group_past", "HW 9"⟩] := by
  have h := (c6_extract_section_scoping.1 "past assignments" "Past Assignments"
    "assignment_group_past" [("https://x/courses/1/assignments/9", "HW 9")]
    "Upcoming Assignments" "assignment_group_upcoming"
    [("https://x/courses/1/assignments/7", "HW 7")]
    (by decide) (by decide) (by decide)).1
  rw [h]
  decide
